import Mathlib

/-!
Shallow embedding of `NotifyingValue.cpp`: a proof-of-concept framework in
which scalar, array and struct fields notify a central
`ValueNotificationManager` of value changes, and accept inbound textual
updates addressed by leaf key.

The embedding has two layers:
* value layer: `NotifyingValue` (the scalar cell template) and
  `NotifyingArray` (the fixed-size array of scalar cells), with their
  assignment, read, stringification and `UpdateValue` behaviour;
* manager layer: `ManagerState` models the singleton
  `ValueNotificationManager` — the creation-ordered object graph
  (`nodes`, holding each observable's key, parent pointer and kind) and the
  registration list `reg` (the `mp_Values` vector, as creation indices).
Outbound notifications are modelled as the `(path, value-text)` pairs the
manager hands to the `NotificationDelegate`.
-/

/-- Scalar cell `NotifyingValue<T>` (NotifyingValue.cpp:88-153): holds `mKey`
and one value `mValue : T`.  The parent pointer and registration side effects
live in the manager layer (`ManagerState`). -/
structure NotifyingValue (T : Type) where
  mKey : String
  mValue : T
deriving DecidableEq, Repr

/-- `operator=` (NotifyingValue.cpp:126-131): stores the new value, then
`SendUpdate` stringifies the (just stored) `mValue` and hands exactly one
notification to the manager.  `toText` stands for `stringstream <<` on `T`.
Returns the updated cell together with the list of value texts sent. -/
def NotifyingValue.assign {T : Type} (toText : T → String)
    (c : NotifyingValue T) (v : T) : NotifyingValue T × List String :=
  let c2 : NotifyingValue T := { c with mValue := v }
  (c2, [toText c2.mValue])

/-- `operator T()` (NotifyingValue.cpp:133-136): a const read of `mValue`
with no side effect; the second component is the (empty) list of
notifications it emits. -/
def NotifyingValue.readOp {T : Type} (c : NotifyingValue T) :
    T × List String :=
  (c.mValue, [])

/-- `NotifyingValue<T>::UpdateValue` (NotifyingValue.cpp:145-150): the body is
empty — the deserialization code (`stringstream ss(value); ss >> mValue`) is
commented out under a `TODO`, so the cell is returned unchanged and nothing
is emitted. -/
def NotifyingValue.UpdateValue {T : Type} (c : NotifyingValue T)
    (value : String) : NotifyingValue T :=
  let _ := value
  c

/-- One in-progress `getline(ss, item, ',')` loop (NotifyingValue.cpp:191):
`acc` holds the characters of the token read so far (reversed).  Reaching a
`','` ends the current token and starts the next `getline` call; reaching
end-of-file ends the current token and the following `getline` call fails,
producing no further token. -/
def getlineGo : List Char → List Char → List String
  | [], acc => [String.mk acc.reverse]
  | c :: cs, acc =>
    if c = ',' then
      String.mk acc.reverse ::
        (match cs with
         | [] => []
         | d :: ds => getlineGo (d :: ds) [])
    else
      getlineGo cs (c :: acc)

/-- `std::getline(ss, item, ',')` tokenisation used by
`NotifyingArray::UpdateValue` (NotifyingValue.cpp:191): `getline` fails
(producing no token) exactly when the stream is already at end-of-file, so an
empty input yields no tokens and a trailing `','` does not yield a final
empty token. -/
def splitCommaTokens (s : String) : List String :=
  match s.data with
  | [] => []
  | c :: cs => getlineGo (c :: cs) []


/-- Replace the element at a given position, leaving the list unchanged when
the position is out of range (used for in-place mutation through a
reference). -/
def listModifyAt {α : Type} (f : α → α) : Nat → List α → List α
  | _, [] => []
  | 0, x :: xs => f x :: xs
  | n + 1, x :: xs => x :: listModifyAt f n xs

/-- `NotifyingArray<T, Size>` (NotifyingValue.cpp:156-202): owns `Size`
scalar cells; the constructor gives element `i` the stringified index as its
key via `Init`.  Parent links and registration live in the manager layer. -/
structure NotifyingArray (T : Type) where
  mKey : String
  mArray : List (NotifyingValue T)
deriving DecidableEq, Repr

/-- Outcome of an element access on a `NotifyingArray`.  `indexOutOfRange`
is the loud failure the spec's error model calls for; the source code has no
path that produces it. -/
inductive AccessResult (T : Type) where
  | ok (cell : NotifyingValue T)
  | undefinedBehavior
  | indexOutOfRange
deriving DecidableEq, Repr

/-- `NotifyingArray::operator[]` (NotifyingValue.cpp:178-181): the body is
`return mArray[i];` with no bounds check.  `std::array::operator[]` requires
`i < Size`; for `i ≥ Size` the source performs an unchecked out-of-bounds
access, marked `undefinedBehavior` here. -/
def NotifyingArray.bracketAccess {T : Type} (a : NotifyingArray T)
    (i : Nat) : AccessResult T :=
  if h : i < a.mArray.length then AccessResult.ok (a.mArray.get ⟨i, h⟩)
  else AccessResult.undefinedBehavior

/-- Loop of `NotifyingArray::UpdateValue` (NotifyingValue.cpp:188-200):
`size_t idx = 0;` then for each `getline` token `item`, if
`idx < mArray.size()` the token is forwarded to
`mArray[idx].UpdateValue(item)`.  The source never increments `idx`, so the
third argument is passed through unchanged. -/
def arrayUpdateGo {T : Type} :
    List (NotifyingValue T) → List String → Nat → List (NotifyingValue T)
  | arr, [], _ => arr
  | arr, item :: rest, idx =>
    arrayUpdateGo
      (if idx < arr.length then
        listModifyAt (fun c => c.UpdateValue item) idx arr
       else arr)
      rest idx

/-- `NotifyingArray::UpdateValue` (NotifyingValue.cpp:188-200): tokenises on
`','` and runs the forwarding loop starting from `idx = 0`. -/
def NotifyingArray.UpdateValue {T : Type} (a : NotifyingArray T)
    (value : String) : NotifyingArray T :=
  { a with mArray := arrayUpdateGo a.mArray (splitCommaTokens value) 0 }

/-- The `(element index, token)` pairs of the `mArray[idx].UpdateValue(item)`
calls made by the loop of `NotifyingArray::UpdateValue`, in call order;
`idx` is never incremented by the source loop. -/
def arrayUpdateCallsGo (size : Nat) : List String → Nat → List (Nat × String)
  | [], _ => []
  | item :: rest, idx =>
    (if idx < size then [(idx, item)] else []) ++
      arrayUpdateCallsGo size rest idx

/-- Call trace of `NotifyingArray::UpdateValue` on a given input text. -/
def NotifyingArray.updateCalls {T : Type} (a : NotifyingArray T)
    (value : String) : List (Nat × String) :=
  arrayUpdateCallsGo a.mArray.length (splitCommaTokens value) 0

/-- Modelled from the spec: the whole-array-model serialization is absent
from the source (`NotifyingArray::SendUpdate`, NotifyingValue.cpp:183-186,
is a no-op in the per-element model the source uses); the spec fixes the
format `"[v0 v1 … vN-1 ]"` — space-separated element texts with a trailing
space before the closing bracket. -/
def serializeWholeArray {T : Type} (toText : T → String)
    (a : NotifyingArray T) : String :=
  "[" ++ (a.mArray.foldl (fun acc c => acc ++ toText c.mValue ++ " ") "") ++ "]"


/-- The kind of a registered observable: `NotifyingValue` with its stored
value (scalar claims at the manager layer use `Int` values, stringified as
`stringstream <<` prints them), `NotifyingArray`, or `NotifyingStruct`. -/
inductive NodeKind where
  | scalar (value : Int)
  | arrayNode
  | structNode
deriving DecidableEq, Repr

/-- One observable of the object graph, creation-ordered: `key` is `mKey`,
`parent` is `mpParent` as the creation index of the parent object (parents
are constructed before their children point at them), `kind` selects the
concrete `NotifyingValueBase` subclass. -/
structure ObsNode where
  key : String
  parent : Option Nat
  kind : NodeKind
deriving DecidableEq, Repr

/-- State of the singleton `ValueNotificationManager`
(NotifyingValue.cpp:57-85): `nodes` is the object graph in creation order,
`reg` is the `mp_Values` vector as creation indices in `Add` order
(`NotifyingStruct` never calls `Add`, so struct nodes normally do not appear
in `reg`). -/
structure ManagerState where
  nodes : List ObsNode
  reg : List Nat
deriving DecidableEq, Repr

/-- The `keys` vector built by `ValueNotificationManager::SendUpdate`
(NotifyingValue.cpp:256-263): the item's own key followed by the keys of its
ancestors, walking `parent()` until `nullptr`.  The C++ walks live pointers;
here the walk carries a fuel bound and looks parents up by creation index
(a missing index is unreachable for states built by the constructors). -/
def collectKeys (nodes : List ObsNode) : Nat → Nat → List String
  | 0, _ => []
  | fuel + 1, i =>
    match nodes.get? i with
    | none => []
    | some n =>
      n.key :: (match n.parent with
                | none => []
                | some p => collectKeys nodes fuel p)

/-- The key-assembly loop of `ValueNotificationManager::SendUpdate`
(NotifyingValue.cpp:266-270): `for (idx = keys.size()-1; idx > 0; idx--)
ss << keys[idx] << ".";` — appends `keys[idx]` and a dot for `idx` from the
argument down to `1`. -/
def joinKeysFromTop (keys : List String) : Nat → String
  | 0 => ""
  | idx + 1 => keys.getD (idx + 1) "" ++ "." ++ joinKeysFromTop keys idx

/-- Full key string assembled by `ValueNotificationManager::SendUpdate`
(NotifyingValue.cpp:265-271): the dotted ancestor keys from the outermost
ancestor down, then `keys[0]`, the item's own key. -/
def assembleKeyString (keys : List String) : String :=
  joinKeysFromTop keys (keys.length - 1) ++ keys.headD ""

/-- Dotted path `ValueNotificationManager::SendUpdate` computes for the
observable at creation index `i`; `nodes.length` bounds the parent walk. -/
def sendUpdatePath (nodes : List ObsNode) (i : Nat) : String :=
  assembleKeyString (collectKeys nodes nodes.length i)

/-- Notifications emitted when `SendUpdate` is invoked on the observable at
creation index `i`: a `NotifyingValue` stringifies `mValue` and the manager
forwards one `(path, text)` pair to the delegate (NotifyingValue.cpp:138-143
and 254-274); the `NotifyingArray` and `NotifyingStruct` overrides are
no-ops (NotifyingValue.cpp:183-186 and 213-216). -/
def sendUpdateNotifs (nodes : List ObsNode) (i : Nat) :
    List (String × String) :=
  match nodes.get? i with
  | some n =>
    match n.kind with
    | NodeKind.scalar v => [(sendUpdatePath nodes i, toString v)]
    | NodeKind.arrayNode => []
    | NodeKind.structNode => []
  | none => []

/-- One `v->SendUpdate()` step as seen from the manager: the method is
`const` — it reads state and emits notifications but returns the state
unchanged. -/
def sendUpdateStep (st : ManagerState) (i : Nat) :
    ManagerState × List (String × String) :=
  (st, sendUpdateNotifs st.nodes i)

/-- Loop of `ValueNotificationManager::NotifyAll`
(NotifyingValue.cpp:246-252): invokes `SendUpdate` on each registered
observable in registration order, threading the state through. -/
def notifyAllGo : ManagerState → List Nat → ManagerState × List (String × String)
  | st, [] => (st, [])
  | st, i :: rest =>
    let step := sendUpdateStep st i
    let restRes := notifyAllGo step.1 rest
    (restRes.1, step.2 ++ restRes.2)

/-- `ValueNotificationManager::NotifyAll` (NotifyingValue.cpp:246-252):
returns the final state and the notifications emitted, in order. -/
def ValueNotificationManager.NotifyAll (st : ManagerState) :
    ManagerState × List (String × String) :=
  notifyAllGo st st.reg

/-- `UpdateValue` of one observable, as it affects that observable's own
node: the `NotifyingValue` body is an empty stub (the deserialization is a
commented-out TODO, NotifyingValue.cpp:145-150), the `NotifyingArray` body
only forwards tokens to element cells whose `UpdateValue` is that same stub
(NotifyingValue.cpp:188-200), and the `NotifyingStruct` body is an empty
stub (NotifyingValue.cpp:218-221); so every branch leaves the node
unchanged. -/
def ObsNode.updateValue (n : ObsNode) (value : String) : ObsNode :=
  let _ := value
  match n.kind with
  | NodeKind.scalar _ => n
  | NodeKind.arrayNode => n
  | NodeKind.structNode => n

/-- `v->UpdateValue(value)` applied to the registered observable at creation
index `i`. -/
def applyUpdateAt (st : ManagerState) (i : Nat) (value : String) :
    ManagerState :=
  { st with nodes := listModifyAt (fun n => n.updateValue value) i st.nodes }

/-- Loop of `ValueNotificationManager::Update` (NotifyingValue.cpp:276-288):
scans `mp_Values` in registration order, compares each observable's own
`key()` with the requested key, and on the first match calls
`UpdateValue(value)` on it and returns `true`; the result also carries the
`(index, text)` trace of the `UpdateValue` calls made.  A missing creation
index is unreachable for states built by the constructors and is skipped. -/
def updateScan (st : ManagerState) (key value : String) :
    List Nat → Bool × ManagerState × List (Nat × String)
  | [] => (false, st, [])
  | i :: rest =>
    match st.nodes.get? i with
    | some n =>
      if n.key == key then (true, applyUpdateAt st i value, [(i, value)])
      else updateScan st key value rest
    | none => updateScan st key value rest

/-- `ValueNotificationManager::Update` (NotifyingValue.cpp:276-288). -/
def ValueNotificationManager.Update (st : ManagerState) (key value : String) :
    Bool × ManagerState × List (Nat × String) :=
  updateScan st key value st.reg

/-- Written from the spec's words for the update-routing claim: the index of
the first registered observable, in registration order, whose own leaf key
is exactly `key`. -/
def specFirstMatch (nodes : List ObsNode) : List Nat → String → Option Nat
  | [], _ => none
  | i :: rest, key =>
    match nodes.get? i with
    | some n => if n.key == key then some i else specFirstMatch nodes rest key
    | none => specFirstMatch nodes rest key

/-- Checks the construction invariant "parents are constructed before their
children": every node's parent index is strictly smaller than its own
creation index; `b` is the creation index of the head node. -/
def parentsOkFrom : Nat → List ObsNode → Bool
  | _, [] => true
  | b, n :: rest =>
    (match n.parent with
     | none => true
     | some p => decide (p < b)) && parentsOkFrom (b + 1) rest

/-- The whole object graph satisfies the parents-first invariant. -/
def parentsOk (nodes : List ObsNode) : Bool :=
  parentsOkFrom 0 nodes

/-- Whether the registered observable at creation index `i` is a
value-bearing leaf (a `NotifyingValue`), as opposed to an array or struct
node. -/
def isValueBearing (nodes : List ObsNode) (i : Nat) : Bool :=
  match nodes.get? i with
  | some n =>
    match n.kind with
    | NodeKind.scalar _ => true
    | _ => false
  | none => false

/-- The single notification a value-bearing leaf at creation index `i`
emits: its dotted path and its stringified value. -/
def leafNotifOf (nodes : List ObsNode) (i : Nat) : String × String :=
  match nodes.get? i with
  | some n =>
    match n.kind with
    | NodeKind.scalar v => (sendUpdatePath nodes i, toString v)
    | _ => ("", "")
  | none => ("", "")

/-- A top-level scalar `i1` holding `42` (the `BasicValues::i1` scenario),
registered as the only observable. -/
def c2State : ManagerState :=
  { nodes := [⟨"i1", none, NodeKind.scalar 42⟩], reg := [0] }

/-- Three-element `Int` array holding `[1, 2, 3]`, element keys the
stringified indices as `NotifyingArray`'s constructor assigns them. -/
def arr123 : NotifyingArray Int :=
  { mKey := "a", mArray := [⟨"0", 1⟩, ⟨"1", 2⟩, ⟨"2", 3⟩] }

/-- Two-element `Int` array with default-initialised elements. -/
def arr2 : NotifyingArray Int :=
  { mKey := "a2", mArray := [⟨"0", 0⟩, ⟨"1", 0⟩] }

/-- One-element `Int` array with a default-initialised element. -/
def arr1 : NotifyingArray Int :=
  { mKey := "a1", mArray := [⟨"0", 0⟩] }

/-- Object graph with a scalar `leaf` nested two composite levels deep
(`root` → `mid` → `leaf`) and sibling observables at every level. -/
def envA : List ObsNode :=
  [⟨"root", none, NodeKind.structNode⟩,
   ⟨"sib1", none, NodeKind.scalar 7⟩,
   ⟨"mid", some 0, NodeKind.structNode⟩,
   ⟨"sib2", some 0, NodeKind.scalar 8⟩,
   ⟨"leaf", some 2, NodeKind.scalar 5⟩,
   ⟨"sib3", some 2, NodeKind.scalar 9⟩]

/-- Claim C1: for every scalar cell and every value of its element type,
`operator=` stores the value — an immediately following read returns it —
and emits exactly one notification carrying the textual form of the value;
a pure read emits no notification. -/
theorem scalar_assign_stores_and_notifies_once (T : Type)
    (toText : T → String) (c : NotifyingValue T) (v : T) :
    ((c.assign toText v).1.readOp).1 = v ∧
      (c.assign toText v).2 = [toText v] ∧
      ∀ d : NotifyingValue T, d.readOp.2 = ([] : List String) :=
  ⟨rfl, rfl, fun _ => rfl⟩

/-- Claim C2 (code bug): `Update("i1", "45")` on a registry whose only
observable is the top-level scalar `i1` holding `42` returns `true` and
routes the text to `i1`'s `UpdateValue`, but the stored value remains `42`:
the scalar `UpdateValue` body is an empty stub, so the parsed `45` is never
stored. -/
theorem update_i1_45_leaves_42 :
    ValueNotificationManager.Update c2State "i1" "45" =
      (true, c2State, [(0, "45")]) ∧
      (NotifyingValue.mk "i1" (42 : Int)).UpdateValue "45" =
        NotifyingValue.mk "i1" 42 :=
  ⟨by decide, rfl⟩

/-- Claim C5 (code bug): the loop of `NotifyingArray::UpdateValue` never
increments `idx`, so on a two-element array the input `"1,2"` forwards both
tokens to element 0, and on a one-element array the token beyond the bound
is forwarded to element 0 as well instead of being ignored. -/
theorem array_update_forwards_all_tokens_to_element_zero :
    arr2.updateCalls "1,2" = [(0, "1"), (0, "2")] ∧
      arr1.updateCalls "1,2" = [(0, "1"), (0, "2")] :=
  ⟨by decide, by decide⟩

/-- Claim C7 counterexample: accessing index 3 of a 3-element array does not
produce the `IndexOutOfRange` failure the claim requires; the source
performs an unchecked out-of-bounds access. -/
theorem bracketAccess_out_of_range_not_loud :
    arr123.bracketAccess 3 = AccessResult.undefinedBehavior ∧
      arr123.bracketAccess 3 ≠ AccessResult.indexOutOfRange :=
  ⟨by decide, by decide⟩

/-- Claim C7 amended: for `i < N`, `operator[]` returns the element at index
`i`; for `i ≥ N` the source performs an unchecked access (undefined
behavior) rather than failing with `IndexOutOfRange`. -/
theorem bracketAccess_amended (T : Type) (a : NotifyingArray T) (i : Nat) :
    (∀ h : i < a.mArray.length,
        a.bracketAccess i = AccessResult.ok (a.mArray.get ⟨i, h⟩)) ∧
      (a.mArray.length ≤ i →
        a.bracketAccess i = AccessResult.undefinedBehavior) := by
  constructor
  · intro h
    simp [NotifyingArray.bracketAccess, h]
  · intro h
    simp [NotifyingArray.bracketAccess, Nat.not_lt.mpr h]

/-- Concrete instance of the amended element-access behaviour on the
3-element array: index 1 yields the second element, index 3 the unchecked
access. -/
theorem bracketAccess_amended_witness :
    arr123.bracketAccess 1 = AccessResult.ok ⟨"1", 2⟩ ∧
      arr123.bracketAccess 3 = AccessResult.undefinedBehavior :=
  ⟨(bracketAccess_amended Int arr123 1).1 (by decide),
   (bracketAccess_amended Int arr123 3).2 (by decide)⟩

/-- Claim C8: serializing the array holding `[1, 2, 3]` (whole-array spec
format `"[1 2 3 ]"`) and applying that text back through `UpdateValue`
leaves the array holding `[1, 2, 3]`. -/
theorem array_serialize_roundtrip_123 :
    arr123.UpdateValue (serializeWholeArray toString arr123) = arr123 ∧
      arr123.mArray.map (fun c => c.mValue) = [1, 2, 3] :=
  ⟨by decide, by decide⟩

/-- The update scan agrees, for every suffix of the registration list, with
the first-match description: no match returns failure with nothing touched;
a first match at index `i` applies `UpdateValue` there and succeeds. -/
theorem updateScan_eq_firstMatch (st : ManagerState) (k t : String)
    (l : List Nat) :
    updateScan st k t l =
      match specFirstMatch st.nodes l k with
      | none => (false, st, [])
      | some i => (true, applyUpdateAt st i t, [(i, t)]) := by
  induction l with
  | nil => rfl
  | cons i rest ih =>
    cases hget : st.nodes[i]? with
    | none => simp [updateScan, specFirstMatch, hget, ih]
    | some n =>
      by_cases hk : n.key = k
      · simp [updateScan, specFirstMatch, hget, hk]
      · simp [updateScan, specFirstMatch, hget, hk, ih]

/-- Claim C3: `Update(k, t)` scans the registration list in registration
order, comparing each registered observable's own leaf key with `k`; at the
first exact match it calls that observable's `UpdateValue(t)` and returns
`true`; when no registered observable has leaf key `k` it returns `false`
and leaves every observable's state untouched. -/
theorem update_routes_to_first_leaf_match (st : ManagerState)
    (k t : String) :
    ValueNotificationManager.Update st k t =
      match specFirstMatch st.nodes st.reg k with
      | none => (false, st, [])
      | some i => (true, applyUpdateAt st i t, [(i, t)]) :=
  updateScan_eq_firstMatch st k t st.reg

/-- `SendUpdate` dispatch on one registered observable produces exactly one
notification when it is a value-bearing leaf and none otherwise. -/
theorem sendUpdateNotifs_eq_leaf_filter (nodes : List ObsNode) (i : Nat) :
    sendUpdateNotifs nodes i =
      if isValueBearing nodes i then [leafNotifOf nodes i] else [] := by
  cases hget : nodes[i]? with
  | none => simp [sendUpdateNotifs, isValueBearing, hget]
  | some n =>
    cases hkind : n.kind <;>
      simp [sendUpdateNotifs, isValueBearing, leafNotifOf, hget, hkind]

/-- The `NotifyAll` loop never changes the manager state. -/
theorem notifyAllGo_fst (st : ManagerState) (l : List Nat) :
    (notifyAllGo st l).1 = st := by
  induction l with
  | nil => rfl
  | cons i rest ih => simpa [notifyAllGo, sendUpdateStep] using ih

/-- The notifications the `NotifyAll` loop emits over any suffix of the
registration list: one per value-bearing leaf entry, in order, none for
array or struct entries. -/
theorem notifyAllGo_snd (st : ManagerState) (l : List Nat) :
    (notifyAllGo st l).2 =
      (l.filter (fun i => isValueBearing st.nodes i)).map
        (fun i => leafNotifOf st.nodes i) := by
  induction l with
  | nil => rfl
  | cons i rest ih =>
    by_cases h : isValueBearing st.nodes i <;>
      simp [notifyAllGo, sendUpdateStep, sendUpdateNotifs_eq_leaf_filter,
        ih, h, List.filter_cons]

/-- Claim C6: `NotifyAll` walks the full registration list in registration
order invoking `SendUpdate` on each entry; array and struct entries emit
nothing, so the emitted notifications are exactly one per value-bearing
leaf entry, in registration order. -/
theorem notifyAll_one_notification_per_leaf (st : ManagerState) :
    (ValueNotificationManager.NotifyAll st).2 =
      (st.reg.filter (fun i => isValueBearing st.nodes i)).map
        (fun i => leafNotifOf st.nodes i) :=
  notifyAllGo_snd st st.reg

/-- Claim C10: notification is read-only — `NotifyAll` leaves the manager
state intact: the object graph (hence every stored scalar value) and the
registration list are unchanged. -/
theorem notifyAll_is_read_only (st : ManagerState) :
    (ValueNotificationManager.NotifyAll st).1 = st ∧
      (ValueNotificationManager.NotifyAll st).1.nodes = st.nodes ∧
      (ValueNotificationManager.NotifyAll st).1.reg = st.reg := by
  have h := notifyAllGo_fst st st.reg
  exact ⟨h, by rw [ValueNotificationManager.NotifyAll, h], by
    rw [ValueNotificationManager.NotifyAll, h]⟩

/-- String concatenation is associative (via the underlying data lists). -/
theorem string_append_assoc (a b c : String) :
    a ++ b ++ c = a ++ (b ++ c) := by
  apply String.ext
  simp [String.data_append]

/-- What the parents-first checker guarantees entrywise: any node found at
offset `i` of a sublist whose head has creation index `b` has its parent
strictly below `b + i`. -/
theorem parentsOkFrom_lt (l : List ObsNode) :
    ∀ (b i : Nat) (n : ObsNode) (p : Nat),
      parentsOkFrom b l = true → l.get? i = some n → n.parent = some p →
      p < b + i := by
  induction l with
  | nil =>
    intro b i n p _ hget _
    simp at hget
  | cons m rest ih =>
    intro b i n p hok hget hp
    rw [parentsOkFrom, Bool.and_eq_true] at hok
    cases i with
    | zero =>
      simp only [List.get?] at hget
      cases hget
      rw [hp] at hok
      have := of_decide_eq_true hok.1
      omega
    | succ j =>
      have := ih (b + 1) j n p hok.2 (by simpa using hget) hp
      omega

/-- Parents-first for the whole graph: a node's parent index is strictly
smaller than its own creation index. -/
theorem parentsOk_lt (nodes : List ObsNode) (i : Nat) (n : ObsNode)
    (p : Nat) (hok : parentsOk nodes = true)
    (hget : nodes.get? i = some n) (hp : n.parent = some p) : p < i := by
  have := parentsOkFrom_lt nodes 0 i n p hok hget hp
  omega

/-- The key walk produces nothing at a missing creation index (unreachable
for states built by the constructors). -/
theorem collectKeys_none (nodes : List ObsNode) (fuel i : Nat)
    (hfuel : 0 < fuel) (hget : nodes[i]? = none) :
    collectKeys nodes fuel i = [] := by
  obtain ⟨f, rfl⟩ : ∃ f, fuel = f + 1 := ⟨fuel - 1, by omega⟩
  simp [collectKeys, hget]

/-- Unfolding step of the key walk at a node that has a parent. -/
theorem collectKeys_cons_parent (nodes : List ObsNode) (fuel i p : Nat)
    (n : ObsNode) (hfuel : 0 < fuel) (hget : nodes[i]? = some n)
    (hp : n.parent = some p) :
    collectKeys nodes fuel i = n.key :: collectKeys nodes (fuel - 1) p := by
  obtain ⟨f, rfl⟩ : ∃ f, fuel = f + 1 := ⟨fuel - 1, by omega⟩
  simp [collectKeys, hget, hp]

/-- Unfolding step of the key walk at a root node. -/
theorem collectKeys_cons_root (nodes : List ObsNode) (fuel i : Nat)
    (n : ObsNode) (hfuel : 0 < fuel) (hget : nodes[i]? = some n)
    (hp : n.parent = none) :
    collectKeys nodes fuel i = [n.key] := by
  obtain ⟨f, rfl⟩ : ∃ f, fuel = f + 1 := ⟨fuel - 1, by omega⟩
  simp [collectKeys, hget, hp]

/-- Claim C9: under the construction invariant that parents are created
before their children (parent indices strictly decrease along the chain),
the parent-chain walk of `SendUpdate` terminates: for the observable at
creation index `i`, every fuel bound beyond `i` collects the same, final
key chain. -/
theorem parent_walk_terminates (nodes : List ObsNode)
    (hok : parentsOk nodes = true) :
    ∀ i fuel, i < fuel →
      collectKeys nodes fuel i = collectKeys nodes (i + 1) i := by
  intro i
  induction i using Nat.strong_induction_on with
  | _ i ih =>
    intro fuel hfuel
    cases hget : nodes[i]? with
    | none =>
      rw [collectKeys_none nodes fuel i (by omega) hget,
        collectKeys_none nodes (i + 1) i (by omega) hget]
    | some n =>
      cases hp : n.parent with
      | none =>
        rw [collectKeys_cons_root nodes fuel i n (by omega) hget hp,
          collectKeys_cons_root nodes (i + 1) i n (by omega) hget hp]
      | some p =>
        have hpi : p < i :=
          parentsOk_lt nodes i n p hok (by rw [List.get?_eq_getElem?]; exact hget) hp
        rw [collectKeys_cons_parent nodes fuel i p n (by omega) hget hp,
          collectKeys_cons_parent nodes (i + 1) i p n (by omega) hget hp]
        simp only [Nat.add_sub_cancel]
        have h1 : collectKeys nodes (fuel - 1) p =
            collectKeys nodes (p + 1) p := ih p hpi (fuel - 1) (by omega)
        have h2 : collectKeys nodes i p = collectKeys nodes (p + 1) p :=
          ih p hpi i (by omega)
        rw [h1, h2]

/-- Concrete instance of chain-walk termination: in the nested graph the
walk from `leaf` (creation index 4) stabilises at fuel 5. -/
theorem parent_walk_terminates_witness :
    parentsOk envA = true ∧
      collectKeys envA 10 4 = collectKeys envA 5 4 :=
  ⟨by decide, parent_walk_terminates envA (by decide) 4 10 (by decide)⟩

/-- The assembled key string of a three-entry chain `[own, mid, root]`:
root first, dot-separated, own key last. -/
theorem assembleKeyString_triple (a b c : String) :
    assembleKeyString [a, b, c] = c ++ "." ++ b ++ "." ++ a := by
  show c ++ "." ++ (b ++ "." ++ "") ++ a = c ++ "." ++ b ++ "." ++ a
  apply String.ext
  simp [String.data_append]

/-- Claim C4: the path delivered to the listener joins the keys from the
outermost ancestor down to the observable itself with `.`; a scalar nested
two composite levels deep yields exactly `root.mid.leaf`, independent of
whatever siblings exist in the object graph. -/
theorem sendUpdatePath_two_levels (nodes : List ObsNode)
    (il im ir : Nat) (nl nm nr : ObsNode)
    (hl : nodes[il]? = some nl) (hlp : nl.parent = some im)
    (hm : nodes[im]? = some nm) (hmp : nm.parent = some ir)
    (hr : nodes[ir]? = some nr) (hrp : nr.parent = none)
    (hrm : ir < im) (hml : im < il) :
    sendUpdatePath nodes il = nr.key ++ "." ++ nm.key ++ "." ++ nl.key := by
  have hlen : il < nodes.length := by
    by_contra hcon
    rw [List.getElem?_eq_none (by omega)] at hl
    exact Option.noConfusion hl
  rw [sendUpdatePath,
    collectKeys_cons_parent nodes nodes.length il im nl (by omega) hl hlp,
    collectKeys_cons_parent nodes (nodes.length - 1) im ir nm (by omega) hm
      hmp,
    collectKeys_cons_root nodes (nodes.length - 1 - 1) ir nr (by omega) hr
      hrp]
  exact assembleKeyString_triple nl.key nm.key nr.key

/-- Concrete instance of two-level path assembly: in the nested graph with
siblings at every level, the scalar at creation index 4 gets the dotted
path `root.mid.leaf`. -/
theorem sendUpdatePath_two_levels_witness :
    envA[4]? = some ⟨"leaf", some 2, NodeKind.scalar 5⟩ ∧
      sendUpdatePath envA 4 = "root.mid.leaf" :=
  ⟨rfl,
   (sendUpdatePath_two_levels envA 4 2 0
      ⟨"leaf", some 2, NodeKind.scalar 5⟩
      ⟨"mid", some 0, NodeKind.structNode⟩
      ⟨"root", none, NodeKind.structNode⟩
      rfl rfl rfl rfl rfl rfl (by decide) (by decide)).trans (by decide)⟩
